import Mathlib

/-!
Verification of google-maps-places-mcp.

Part 1 embeds the Places API utility layer (`src/utils/places-api.ts`,
given as `src/unnamed/part_000`): JSON values and parsing (standing in for
`JSON.parse` / `JSON.stringify` / `Response.json()`), HTTP requests and
responses, `parseJsonResponse`, `makePlacesApiCall` and
`getPlacesPhotoUrl`.  The network is modelled by passing an explicit
`fetchFn : FetchRequest → HttpResponse`.

Part 2 models the OAuth proxy subsystem (state codec, authorization
redirector, callback relay, token exchange proxy).  That code is not part
of the provided sources, so those definitions are modelled from the
specification; each such definition carries a doc comment saying so.
-/

/-- JSON values.  Numbers are kept as their decimal lexeme so that no
floating-point semantics is needed. -/
inductive Json where
  | null : Json
  | bool : Bool → Json
  | num : String → Json
  | str : String → Json
  | arr : List Json → Json
  | obj : List (String × Json) → Json

/-- JSON whitespace characters (as accepted by `JSON.parse`). -/
def isJsonWs (c : Char) : Bool :=
  c = ' ' || c = '\t' || c = '\n' || c = '\r'

/-- Drop leading JSON whitespace. -/
def skipWs (cs : List Char) : List Char := cs.dropWhile isJsonWs

/-- Value of a hexadecimal digit, if any (via code points: `0`-`9` are
48-57, `a`-`f` are 97-102, `A`-`F` are 65-70). -/
def hexDigitVal (c : Char) : Option Nat :=
  let n := c.toNat
  if 48 ≤ n && n ≤ 57 then some (n - 48)
  else if 97 ≤ n && n ≤ 102 then some (n - 87)
  else if 65 ≤ n && n ≤ 70 then some (n - 55)
  else none

/-- Decode a single-character JSON escape (everything but `\u`). -/
def escChar (e : Char) : Option Char :=
  if e = '"' || e = '\\' || e = '/' then some e
  else if e = 'n' then some '\n'
  else if e = 't' then some '\t'
  else if e = 'r' then some '\r'
  else if e = 'b' then some (Char.ofNat 8)
  else if e = 'f' then some (Char.ofNat 12)
  else none

/-- Parse the body of a JSON string literal (after the opening quote),
returning the decoded characters and the input after the closing quote. -/
def parseStringChars : List Char → Option (List Char × List Char)
  | [] => none
  | c :: cs =>
    if c = '"' then some ([], cs)
    else if c = '\\' then
      match cs with
      | [] => none
      | e :: cs2 =>
        if e = 'u' then
          match cs2 with
          | h1 :: h2 :: h3 :: h4 :: cs3 =>
            match hexDigitVal h1, hexDigitVal h2, hexDigitVal h3, hexDigitVal h4 with
            | some a, some b, some c2, some d =>
              match parseStringChars cs3 with
              | some (s, r) =>
                some (Char.ofNat (((a * 16 + b) * 16 + c2) * 16 + d) :: s, r)
              | none => none
            | _, _, _, _ => none
          | _ => none
        else
          match escChar e, parseStringChars cs2 with
          | some ch, some (s, r) => some (ch :: s, r)
          | _, _ => none
    else if c.toNat < 32 then none
    else
      match parseStringChars cs with
      | some (s, r) => some (c :: s, r)
      | none => none

/-- Split a longest prefix of decimal digits off the input. -/
def takeDigits (cs : List Char) : List Char × List Char := cs.span Char.isDigit

/-- Consume the given literal characters from the front of the input. -/
def stripLit : List Char → List Char → Option (List Char)
  | [], cs => some cs
  | l :: ls, c :: cs => if c = l then stripLit ls cs else none
  | _ :: _, [] => none

/-- Parse an optional JSON fraction part, returning its lexeme. -/
def parseFracPart : List Char → Option (List Char × List Char)
  | '.' :: r =>
    match takeDigits r with
    | ([], _) => none
    | (ds, rest) => some ('.' :: ds, rest)
  | cs => some ([], cs)

/-- Parse an optional JSON exponent part, returning its lexeme. -/
def parseExpPart : List Char → Option (List Char × List Char)
  | [] => some ([], [])
  | c :: r =>
    if c = 'e' || c = 'E' then
      let (sgn, r2) :=
        match r with
        | s :: r3 => if s = '+' || s = '-' then ([s], r3) else (([] : List Char), s :: r3)
        | [] => ([], [])
      match takeDigits r2 with
      | ([], _) => none
      | (ds, rest) => some (c :: (sgn ++ ds), rest)
    else some ([], c :: r)

/-- Parse a JSON number, returning its lexeme. -/
def parseNumberLexeme (cs : List Char) : Option (String × List Char) :=
  let (sgn, cs1) :=
    match cs with
    | c :: r => if c = '-' then (['-'], r) else (([] : List Char), c :: r)
    | [] => ([], [])
  match takeDigits cs1 with
  | ([], _) => none
  | (ds, cs2) =>
    if 1 < ds.length && ds.head? = some '0' then none
    else
      match parseFracPart cs2 with
      | none => none
      | some (f, cs3) =>
        match parseExpPart cs3 with
        | none => none
        | some (e, cs4) => some (String.mk (sgn ++ ds ++ f ++ e), cs4)

/-- The left and right brace characters. -/
def lbraceChar : Char := Char.ofNat 123

/-- See `lbraceChar`. -/
def rbraceChar : Char := Char.ofNat 125

mutual

/-- Fuel-indexed parser for a JSON value. -/
def parseVal : Nat → List Char → Option (Json × List Char)
  | 0, _ => none
  | fuel + 1, cs =>
    match skipWs cs with
    | [] => none
    | c :: rest =>
      if c = 'n' then
        match stripLit "ull".data rest with
        | some r => some (.null, r)
        | none => none
      else if c = 't' then
        match stripLit "rue".data rest with
        | some r => some (.bool true, r)
        | none => none
      else if c = 'f' then
        match stripLit "alse".data rest with
        | some r => some (.bool false, r)
        | none => none
      else if c = '"' then
        match parseStringChars rest with
        | some (s, r) => some (.str (String.mk s), r)
        | none => none
      else if c = '[' then
        match skipWs rest with
        | ']' :: r => some (.arr [], r)
        | _ =>
          match parseElems fuel rest with
          | some (js, r) => some (.arr js, r)
          | none => none
      else if c = lbraceChar then
        match skipWs rest with
        | c2 :: r =>
          if c2 = rbraceChar then some (.obj [], r)
          else
            match parseMembers fuel rest with
            | some (ms, r2) => some (.obj ms, r2)
            | none => none
        | [] => none
      else if c = '-' || c.isDigit then
        match parseNumberLexeme (c :: rest) with
        | some (s, r) => some (.num s, r)
        | none => none
      else none

/-- Fuel-indexed parser for the elements of a non-empty JSON array. -/
def parseElems : Nat → List Char → Option (List Json × List Char)
  | 0, _ => none
  | fuel + 1, cs =>
    match parseVal fuel cs with
    | none => none
    | some (j, r) =>
      match skipWs r with
      | ',' :: r2 =>
        match parseElems fuel r2 with
        | some (js, r3) => some (j :: js, r3)
        | none => none
      | ']' :: r2 => some ([j], r2)
      | _ => none

/-- Fuel-indexed parser for the members of a non-empty JSON object. -/
def parseMembers : Nat → List Char → Option (List (String × Json) × List Char)
  | 0, _ => none
  | fuel + 1, cs =>
    match skipWs cs with
    | [] => none
    | c :: rest =>
      if c = '"' then
        match parseStringChars rest with
        | none => none
        | some (k, r) =>
          match skipWs r with
          | ':' :: r2 =>
            match parseVal fuel r2 with
            | none => none
            | some (v, r3) =>
              match skipWs r3 with
              | [] => none
              | c2 :: r4 =>
                if c2 = ',' then
                  match parseMembers fuel r4 with
                  | some (ms, r5) => some ((String.mk k, v) :: ms, r5)
                  | none => none
                else if c2 = rbraceChar then some ([(String.mk k, v)], r4)
                else none
          | _ => none
      else none

end

/-- Model of `JSON.parse`: parse a complete JSON document, requiring that
only whitespace remains afterwards. -/
def jsonParse (s : String) : Option Json :=
  match parseVal (2 * s.length + 2) s.data with
  | some (j, rest) => if (skipWs rest).isEmpty then some j else none
  | none => none

/-- Escape one character for a JSON string literal, as `JSON.stringify`
does. -/
def escapeJsonChar (c : Char) : List Char :=
  if c = '"' then ['\\', '"']
  else if c = '\\' then ['\\', '\\']
  else if c = '\n' then ['\\', 'n']
  else if c = '\t' then ['\\', 't']
  else if c = '\r' then ['\\', 'r']
  else if c = Char.ofNat 8 then ['\\', 'b']
  else if c = Char.ofNat 12 then ['\\', 'f']
  else if c.toNat < 32 then
    ['\\', 'u', '0', '0',
     (Nat.digitChar (c.toNat / 16)), (Nat.digitChar (c.toNat % 16))]
  else [c]

/-- Render a JSON string literal including the surrounding quotes. -/
def quoteJsonString (s : String) : String :=
  String.mk ('"' :: (s.data.map escapeJsonChar).flatten ++ ['"'])

mutual

/-- Model of `JSON.stringify` (no indentation, as the source calls it). -/
def jsonStringify : Json → String
  | .null => "null"
  | .bool true => "true"
  | .bool false => "false"
  | .num s => s
  | .str s => quoteJsonString s
  | .arr js => "[" ++ stringifyElems js ++ "]"
  | .obj ms => "\x7b" ++ stringifyMembers ms ++ "\x7d"

/-- Comma-separated rendering of array elements. -/
def stringifyElems : List Json → String
  | [] => ""
  | [j] => jsonStringify j
  | j :: js => jsonStringify j ++ "," ++ stringifyElems js

/-- Comma-separated rendering of object members. -/
def stringifyMembers : List (String × Json) → String
  | [] => ""
  | [(k, v)] => quoteJsonString k ++ ":" ++ jsonStringify v
  | (k, v) :: ms => quoteJsonString k ++ ":" ++ jsonStringify v ++ "," ++ stringifyMembers ms

end

/-- Member access `j.key` on a parsed JSON value, as the source does with
`data.photoUri`; a missing member (JavaScript `undefined`) is modelled as
`Json.null`. -/
def jsonGet (j : Json) (key : String) : Json :=
  match j with
  | .obj ms =>
    match ms.lookup key with
    | some v => v
    | none => .null
  | _ => .null

/-- An HTTP response as the source observes it: `ok`, `status`,
`statusText` and the body text returned by `response.text()`. -/
structure HttpResponse where
  ok : Bool
  status : Nat
  statusText : String
  bodyText : String

/-- An outbound HTTP request as built by the source (`fetch` arguments
plus the URL). -/
structure FetchRequest where
  url : String
  method : String
  headers : List (String × String)
  body : Option String

/-- The two kinds of `Error` thrown by `src/utils/places-api.ts`: the
upstream API error thrown by `handleApiError`, and the JSON parse error
thrown by `parseJsonResponse` (for `getPlacesPhotoUrl`, by
`response.json()`). -/
inductive ApiError where
  | apiError (status : Nat) (statusText : String) (bodyText : String)
  | parseError (message : String)
deriving DecidableEq

/-- The `Error.message` strings the source builds at its two throw
sites. -/
def ApiError.render : ApiError → String
  | .apiError status statusText bodyText =>
    "Places API error: " ++ toString status ++ " " ++ statusText ++ " - " ++ bodyText
  | .parseError message => "Failed to parse JSON response: " ++ message

/-- `createBaseHeaders` from the source. -/
def createBaseHeaders (accessToken : String) : List (String × String) :=
  [("Authorization", "Bearer " ++ accessToken), ("Content-Type", "application/json")]

/-- Assignment into a string-keyed record (`headers[k] = v`) and
`URLSearchParams.set`: replace the value at an existing key, else append
the pair at the end. -/
def assocSet : List (String × String) → String → String → List (String × String)
  | [], k, v => [(k, v)]
  | (k0, v0) :: rest, k, v =>
    if k0 = k then (k, v) :: rest else (k0, v0) :: assocSet rest k v

/-- `URLSearchParams.toString`; the keys and values the source produces
are digits and plain ASCII names, on which percent-encoding is the
identity. -/
def renderParams (ps : List (String × String)) : String :=
  String.intercalate "&" (ps.map (fun p => p.1 ++ "=" ++ p.2))

/-- `PLACES_API_BASE_URL` from the source. -/
def PLACES_API_BASE_URL : String := "https://places.googleapis.com/v1"

/-- The object `parseJsonResponse` returns for an empty or
whitespace-only success body. -/
def successJson : Json :=
  .obj [("success", .bool true), ("message", .str "Operation completed successfully")]

/-- Model of JavaScript `String.prototype.trim`: drop whitespace from
both ends. -/
def trimString (s : String) : String :=
  String.mk (((s.data.dropWhile isJsonWs).reverse.dropWhile isJsonWs).reverse)

/-- `parseJsonResponse` from the source: non-ok responses raise the
`handleApiError` error carrying the status, status text and body text;
an empty (after trim) body yields `successJson`; otherwise the body is
parsed as JSON, a parse failure raising the parse error. -/
def parseJsonResponse (response : HttpResponse) : Except ApiError Json :=
  if !response.ok then
    .error (.apiError response.status response.statusText response.bodyText)
  else if trimString response.bodyText = "" then
    .ok successJson
  else
    match jsonParse response.bodyText with
    | some j => .ok j
    | none => .error (.parseError response.bodyText)

/-- The request `makePlacesApiCall` sends: POST to the base URL plus the
endpoint, base headers with the field mask added, JSON-stringified
body. -/
def placesApiRequest (endpoint accessToken : String) (body : Json) (fieldMask : String) :
    FetchRequest where
  url := PLACES_API_BASE_URL ++ endpoint
  method := "POST"
  headers := assocSet (createBaseHeaders accessToken) "X-Goog-FieldMask" fieldMask
  body := some (jsonStringify body)

/-- `makePlacesApiCall` from the source, with the network passed in as
`fetchFn`. -/
def makePlacesApiCall (fetchFn : FetchRequest → HttpResponse)
    (endpoint accessToken : String) (body : Json) (fieldMask : String) :
    Except ApiError Json :=
  parseJsonResponse (fetchFn (placesApiRequest endpoint accessToken body fieldMask))

/-- JavaScript truthiness of an optional number (`undefined` and `0` are
falsy). -/
def truthyNum : Option Nat → Bool
  | none => false
  | some n => n != 0

/-- The query parameters `getPlacesPhotoUrl` builds: each supplied (and
truthy) dimension is set, `maxHeightPx=400` is defaulted when neither
dimension is truthy, and `skipHttpRedirect=true` is always set. -/
def photoParams (maxHeightPx maxWidthPx : Option Nat) : List (String × String) :=
  let params : List (String × String) := []
  let params :=
    match maxHeightPx with
    | some n => if n != 0 then assocSet params "maxHeightPx" (toString n) else params
    | none => params
  let params :=
    match maxWidthPx with
    | some n => if n != 0 then assocSet params "maxWidthPx" (toString n) else params
    | none => params
  let params :=
    if !truthyNum maxHeightPx && !truthyNum maxWidthPx then
      assocSet params "maxHeightPx" "400"
    else params
  assocSet params "skipHttpRedirect" "true"

/-- The GET request `getPlacesPhotoUrl` sends. -/
def photoRequest (photoName accessToken : String) (maxHeightPx maxWidthPx : Option Nat) :
    FetchRequest where
  url := PLACES_API_BASE_URL ++ "/" ++ photoName ++ "/media?" ++
    renderParams (photoParams maxHeightPx maxWidthPx)
  method := "GET"
  headers := [("Authorization", "Bearer " ++ accessToken)]
  body := none

/-- `getPlacesPhotoUrl` from the source: non-ok responses raise the
`handleApiError` error; otherwise the body is parsed (`response.json()`,
whose `SyntaxError` on malformed JSON is the parse error) and the
`photoUri` member is returned. -/
def getPlacesPhotoUrl (fetchFn : FetchRequest → HttpResponse)
    (photoName accessToken : String) (maxHeightPx maxWidthPx : Option Nat) :
    Except ApiError Json :=
  let response := fetchFn (photoRequest photoName accessToken maxHeightPx maxWidthPx)
  if !response.ok then
    .error (.apiError response.status response.statusText response.bodyText)
  else
    match jsonParse response.bodyText with
    | some data => .ok (jsonGet data "photoUri")
    | none => .error (.parseError response.bodyText)

/-- Modelled from the spec: the OAuth proxy endpoints (State Codec,
Authorization Redirector, Callback Relay, Token Exchange Proxy) are not
among the provided source files, so the payload carried inside
OpaqueState is taken from §3 of the specification: the caller's
`client_redirect_uri` and `client_state`, plus the optional PKCE
`code_challenge`. -/
structure StatePayload where
  client_redirect_uri : String
  client_state : String
  code_challenge : Option String
deriving DecidableEq

/-- Modelled from the spec: OpaqueState is a "serialized, encoded value";
the serialization renders each character as a tag byte `1` followed by
its code point in three base-256 digits, with a terminating tag byte
`0`. -/
def serializeChars : List Char → List Nat
  | [] => [0]
  | c :: cs => 1 :: (c.toNat / 65536 :: c.toNat / 256 % 256 :: c.toNat % 256 :: serializeChars cs)

/-- Serialize a string field of the state payload. -/
def serializeString (s : String) : List Nat := serializeChars s.data

/-- Serialize the optional PKCE challenge: tag byte `0` for absent, `1`
followed by the string for present. -/
def serializeOptString : Option String → List Nat
  | none => [0]
  | some s => 1 :: serializeString s

/-- The serialized state payload: its three fields in order. -/
def payloadBytes (p : StatePayload) : List Nat :=
  serializeString p.client_redirect_uri ++ serializeString p.client_state ++
    serializeOptString p.code_challenge

/-- Modelled from the spec: §9 asks for an authenticated (HMAC-style)
envelope so that tampering is detected; the authenticator is a keyed
checksum byte over the serialized payload. -/
def macByte (key : Nat) (bs : List Nat) : Nat := (key + bs.sum) % 256

/-- Modelled from the spec: `encode` of the State Codec — the
authenticator byte followed by the serialized payload. -/
def encodeState (key : Nat) (p : StatePayload) : List Nat :=
  macByte key (payloadBytes p) :: payloadBytes p

/-- Inverse of `serializeChars`: rebuild the characters and return the
remaining bytes. -/
def parseChars : List Nat → Option (List Char × List Nat)
  | 0 :: rest => some ([], rest)
  | 1 :: b0 :: b1 :: b2 :: rest =>
    match parseChars rest with
    | some (cs, r) => some (Char.ofNat (b0 * 65536 + b1 * 256 + b2) :: cs, r)
    | none => none
  | _ => none

/-- Inverse of `serializeString`. -/
def parseStringBytes (bs : List Nat) : Option (String × List Nat) :=
  match parseChars bs with
  | some (cs, r) => some (String.mk cs, r)
  | none => none

/-- Inverse of `serializeOptString`. -/
def parseOptString : List Nat → Option (Option String × List Nat)
  | 0 :: rest => some (none, rest)
  | 1 :: rest =>
    match parseStringBytes rest with
    | some (s, r) => some (some s, r)
    | none => none
  | _ => none

/-- Modelled from the spec: `decode` of the State Codec — check the
authenticator byte, then parse the three payload fields, requiring the
input to be exactly consumed.  Any failure yields `none`
(StateIntegrityError). -/
def decodeState (key : Nat) (bs : List Nat) : Option StatePayload :=
  match bs with
  | [] => none
  | tag :: rest =>
    if macByte key rest = tag then
      match parseStringBytes rest with
      | some (uri, r1) =>
        match parseStringBytes r1 with
        | some (st, r2) =>
          match parseOptString r2 with
          | some (ch, []) => some ⟨uri, st, ch⟩
          | _ => none
        | none => none
      | none => none
    else none

/-- Modelled from the spec: the static configuration of the proxy —
ProxyClientIdentity, the upstream endpoints, the proxy's own callback
URI and the key of the state authenticator. -/
structure ProxyConfig where
  client_id : String
  client_secret : String
  upstream_authorize_url : String
  upstream_token_url : String
  callback_uri : String
  state_key : Nat

/-- Modelled from the spec: the query parameters of a `/authorize`
request (§4.3). -/
structure AuthorizeQuery where
  response_type : Option String
  redirect_uri : Option String
  state : Option String
  scope : Option String
  code_challenge : Option String

/-- Responses of the Authorization Redirector: an HTTP redirect or a 4xx
CallerInputError. -/
inductive AuthorizeResponse where
  | redirect (location : String)
  | callerInputError (status : Nat) (message : String)
deriving DecidableEq

/-- Responses of the Callback Relay: an HTTP redirect or an
authorization error. -/
inductive RelayResponse where
  | redirect (location : String)
  | authError (status : Nat) (message : String)
deriving DecidableEq

/-- Modelled from the spec: "well-formed URI" check of §4.3 — a nonempty
alphabetic scheme, `://`, and a nonempty remainder. -/
def isWellFormedUri (s : String) : Bool :=
  match s.splitOn "://" with
  | scheme :: rest :: more =>
    !scheme.isEmpty && scheme.data.all Char.isAlpha &&
      !(String.intercalate "://" (rest :: more)).isEmpty
  | _ => false

/-- Render the opaque state bytes as a URL-safe string for the upstream
redirect. -/
def renderStateParam (bs : List Nat) : String :=
  String.intercalate "." (bs.map toString)

/-- The state payload the proxy builds for one `/authorize` request. -/
def flowPayload (q : AuthorizeQuery) (uri : String) : StatePayload :=
  ⟨uri, q.state.getD "", q.code_challenge⟩

/-- The upstream authorize URL: the proxy's own client id, the proxy's
callback as `redirect_uri`, and the opaque state. -/
def upstreamAuthorizeLocation (config : ProxyConfig) (scope : String) (stateBytes : List Nat) :
    String :=
  config.upstream_authorize_url ++ "?response_type=code&client_id=" ++ config.client_id ++
    "&redirect_uri=" ++ config.callback_uri ++ "&scope=" ++ scope ++
    "&state=" ++ renderStateParam stateBytes

/-- Modelled from the spec: the Authorization Redirector (§4.3) —
`redirect_uri` must be present and well-formed, else a 4xx
CallerInputError; on success, redirect upstream carrying the encoded
state. -/
def authorizeHandler (config : ProxyConfig) (q : AuthorizeQuery) : AuthorizeResponse :=
  match q.redirect_uri with
  | none => .callerInputError 400 "redirect_uri is required"
  | some uri =>
    if isWellFormedUri uri then
      .redirect (upstreamAuthorizeLocation config
        (q.scope.getD "https://www.googleapis.com/auth/cloud-platform")
        (encodeState config.state_key (flowPayload q uri)))
    else .callerInputError 400 "redirect_uri is not a valid URL"

/-- Modelled from the spec: the Callback Relay (§4.4) — decode the
state; on failure reply with an authorization error and no redirect; on
success redirect to the decoded `client_redirect_uri` with the upstream
`code` and the original `client_state` reattached. -/
def callbackRelay (key : Nat) (code : String) (state : List Nat) : RelayResponse :=
  match decodeState key state with
  | some p => .redirect (p.client_redirect_uri ++ "?code=" ++ code ++ "&state=" ++ p.client_state)
  | none => .authError 400 "invalid state"

/-- Modelled from the spec: a token request's form fields (§4.5, §6). -/
structure TokenRequest where
  grant_type : Option String
  code : Option String
  code_verifier : Option String
  redirect_uri : Option String
  refresh_token : Option String
  client_id : Option String
  client_secret : Option String
deriving DecidableEq

/-- Status and body of the upstream token endpoint's response. -/
structure UpstreamHttpResponse where
  status : Nat
  body : String
deriving DecidableEq

/-- Modelled from the spec: the outbound upstream token request —
identical to the caller's, but with `client_id`/`client_secret` replaced
by ProxyClientIdentity (§4.5). -/
def buildUpstreamTokenRequest (config : ProxyConfig) (req : TokenRequest) : TokenRequest :=
  { req with client_id := some config.client_id, client_secret := some config.client_secret }

/-- Modelled from the spec: the Token Exchange Proxy (§4.5) — forward
the rewritten request upstream and relay the upstream status and body
unchanged. -/
def tokenExchangeProxy (config : ProxyConfig)
    (upstream : TokenRequest → UpstreamHttpResponse) (req : TokenRequest) :
    UpstreamHttpResponse :=
  upstream (buildUpstreamTokenRequest config req)

theorem char_toNat_lt (c : Char) : c.toNat < 1114112 := by
  have h := c.valid
  have e : c.toNat = c.val.toNat := rfl
  rcases h with h | ⟨h1, h2⟩ <;> omega

theorem parseChars_serializeChars (cs : List Char) (r : List Nat) :
    parseChars (serializeChars cs ++ r) = some (cs, r) := by
  induction cs with
  | nil => simp [serializeChars, parseChars]
  | cons c cs ih =>
    have hd : c.toNat / 65536 * 65536 + c.toNat / 256 % 256 * 256 + c.toNat % 256 = c.toNat := by
      omega
    simp [serializeChars, parseChars, ih, hd, Char.ofNat_toNat]

theorem parseStringBytes_serializeString (s : String) (r : List Nat) :
    parseStringBytes (serializeString s ++ r) = some (s, r) := by
  cases s with
  | mk data => simp [parseStringBytes, serializeString, parseChars_serializeChars]

theorem parseOptString_serializeOptString (o : Option String) (r : List Nat) :
    parseOptString (serializeOptString o ++ r) = some (o, r) := by
  cases o with
  | none => simp [serializeOptString, parseOptString]
  | some s => simp [serializeOptString, parseOptString, parseStringBytes_serializeString]

/-- Decoding an encoded payload recovers it; shared helper for the
roundtrip and flow-isolation results. -/
theorem decode_encode_aux (key : Nat) (p : StatePayload) :
    decodeState key (encodeState key p) = some p := by
  cases p with
  | mk uri st ch =>
    have h1 : payloadBytes ⟨uri, st, ch⟩ =
        serializeString uri ++ (serializeString st ++ serializeOptString ch) := by
      simp [payloadBytes]
    have h2 : parseOptString (serializeOptString ch) = some (ch, []) := by
      have := parseOptString_serializeOptString ch []
      simpa using this
    simp [decodeState, encodeState, h1, parseStringBytes_serializeString, h2]

theorem mem_serializeChars_lt (cs : List Char) : ∀ b ∈ serializeChars cs, b < 256 := by
  induction cs with
  | nil => simp [serializeChars]
  | cons c cs ih =>
    intro b hb
    have hc := char_toNat_lt c
    simp [serializeChars] at hb
    rcases hb with h | h | h | h | h
    · omega
    · omega
    · omega
    · omega
    · exact ih b h

theorem mem_payloadBytes_lt (p : StatePayload) : ∀ b ∈ payloadBytes p, b < 256 := by
  intro b hb
  simp [payloadBytes, serializeString, serializeOptString] at hb
  rcases hb with h | h | h
  · exact mem_serializeChars_lt _ b h
  · exact mem_serializeChars_lt _ b h
  · cases hch : p.code_challenge with
    | none => rw [hch] at h; simp at h; omega
    | some s =>
      rw [hch] at h; simp at h
      rcases h with h | h
      · omega
      · exact mem_serializeChars_lt _ b h

theorem sum_set_add (l : List Nat) (i : Nat) (b : Nat) (h : i < l.length) :
    (l.set i b).sum + l[i] = l.sum + b := by
  induction l generalizing i with
  | nil => simp at h
  | cons a l ih =>
    cases i with
    | zero => simp [List.set, List.sum_cons]; omega
    | succ j =>
      have hj : j < l.length := by simpa using h
      have := ih j hj
      simp only [List.set, List.sum_cons, List.getElem_cons_succ]
      omega

/-- Claim C2: any OpaqueState that differs in a single byte from a value
the proxy issued is rejected by the Callback Relay with an authorization
error; no redirect is issued. -/
theorem callbackRelay_rejects_tampered (key : Nat) (p : StatePayload) (code : String)
    (i b : Nat) (hi : i < (encodeState key p).length) (hb : b < 256)
    (hne : b ≠ (encodeState key p)[i]) :
    callbackRelay key code ((encodeState key p).set i b) = .authError 400 "invalid state" := by
  cases i with
  | zero =>
    have h0 : (encodeState key p)[0] = macByte key (payloadBytes p) := rfl
    rw [h0] at hne
    have hset : (encodeState key p).set 0 b = b :: payloadBytes p := rfl
    rw [hset]
    have hcond : macByte key (payloadBytes p) ≠ b := fun hc => hne hc.symm
    simp [callbackRelay, decodeState, hcond]
  | succ j =>
    have hj : j < (payloadBytes p).length := by
      simpa [encodeState] using hi
    have hset : (encodeState key p).set (j + 1) b =
        macByte key (payloadBytes p) :: (payloadBytes p).set j b := rfl
    have hidx : (encodeState key p)[j + 1] = (payloadBytes p)[j] := by
      simp [encodeState]
    rw [hidx] at hne
    have hold : (payloadBytes p)[j] < 256 :=
      mem_payloadBytes_lt p _ (List.getElem_mem hj)
    have hsum := sum_set_add (payloadBytes p) j b hj
    have hcond : macByte key ((payloadBytes p).set j b) ≠ macByte key (payloadBytes p) := by
      intro hc
      unfold macByte at hc
      omega
    rw [hset]
    simp [callbackRelay, decodeState, hcond]

/-- Claim C1: decoding the OpaqueState produced by encoding a valid
AuthorizationRequest payload reproduces the original
`client_redirect_uri`, `client_state` (and PKCE challenge) exactly:
decode after encode is the identity on payloads. -/
theorem state_codec_roundtrip (key : Nat) (p : StatePayload) :
    decodeState key (encodeState key p) = some p :=
  decode_encode_aux key p

/-- Concrete payload used by the witnesses. -/
def samplePayload : StatePayload := ⟨"https://a.b/cb", "s1", none⟩

/-- Witness for the tamper-detection theorem: flipping byte 1 of a
concretely issued state makes the relay reject. -/
theorem callbackRelay_rejects_tampered_witness :
    callbackRelay 7 "XYZ" ((encodeState 7 samplePayload).set 1 5) =
      .authError 400 "invalid state" :=
  callbackRelay_rejects_tampered 7 samplePayload "XYZ" 1 5
    (by decide) (by decide) (by decide)

/-- Claim C3: when the state decodes successfully, the Callback Relay
redirects to the decoded `client_redirect_uri` carrying the upstream
`code` and the original `client_state`. -/
theorem callbackRelay_redirects_on_decode (key : Nat) (code : String) (st : List Nat)
    (p : StatePayload) (h : decodeState key st = some p) :
    callbackRelay key code st =
      .redirect (p.client_redirect_uri ++ "?code=" ++ code ++ "&state=" ++ p.client_state) := by
  simp [callbackRelay, h]

/-- Witness for the relay-redirect theorem at a concrete flow. -/
theorem callbackRelay_redirects_on_decode_witness :
    callbackRelay 7 "XYZ" (encodeState 7 samplePayload) =
      .redirect "https://a.b/cb?code=XYZ&state=s1" :=
  callbackRelay_redirects_on_decode 7 "XYZ" (encodeState 7 samplePayload)
    samplePayload (by decide)

/-- Claim C7: the relay's response is a function of its own request
alone — mapping it over any interleaved list of requests answers each
entry from that entry only — and two flows with different
`client_redirect_uri`/`client_state` pairs each resolve to their own
redirect target with their own state. -/
theorem concurrent_flows_isolated (config : ProxyConfig) (q1 q2 : AuthorizeQuery)
    (u1 u2 s1 s2 code1 code2 : String)
    (h1 : q1.redirect_uri = some u1) (hs1 : q1.state = some s1)
    (h2 : q2.redirect_uri = some u2) (hs2 : q2.state = some s2)
    (hdiff : (u1, s1) ≠ (u2, s2)) :
    callbackRelay config.state_key code1 (encodeState config.state_key (flowPayload q1 u1)) =
      .redirect (u1 ++ "?code=" ++ code1 ++ "&state=" ++ s1) ∧
    callbackRelay config.state_key code2 (encodeState config.state_key (flowPayload q2 u2)) =
      .redirect (u2 ++ "?code=" ++ code2 ++ "&state=" ++ s2) ∧
    ∀ (flows : List (String × List Nat)) (i : Nat) (hi : i < flows.length),
      (flows.map (fun f => callbackRelay config.state_key f.1 f.2)).get
          ⟨i, by simpa using hi⟩ =
        callbackRelay config.state_key (flows.get ⟨i, hi⟩).1 (flows.get ⟨i, hi⟩).2 := by
  have e1 : flowPayload q1 u1 = ⟨u1, s1, q1.code_challenge⟩ := by simp [flowPayload, hs1]
  have e2 : flowPayload q2 u2 = ⟨u2, s2, q2.code_challenge⟩ := by simp [flowPayload, hs2]
  refine ⟨?_, ?_, ?_⟩
  · rw [e1]
    simp [callbackRelay, decode_encode_aux]
  · rw [e2]
    simp [callbackRelay, decode_encode_aux]
  · intro flows i hi
    simp [List.getElem_map]

/-- Another concrete payload source for the isolation witness. -/
def sampleQuery1 : AuthorizeQuery := ⟨some "code", some "https://a.b/cb", some "s1", none, none⟩

/-- See `sampleQuery1`. -/
def sampleQuery2 : AuthorizeQuery := ⟨some "code", some "https://c.d/cb", some "s2", none, none⟩

/-- Concrete proxy configuration used by the witnesses. -/
def sampleConfig : ProxyConfig :=
  ⟨"proxy-id", "proxy-secret", "https://up.example/auth", "https://up.example/token",
    "https://proxy.example/callback", 7⟩

/-- Witness for flow isolation: two concrete interleaved flows each end
at their own redirect URI with their own state. -/
theorem concurrent_flows_isolated_witness :
    callbackRelay 7 "c1" (encodeState 7 (flowPayload sampleQuery1 "https://a.b/cb")) =
      .redirect "https://a.b/cb?code=c1&state=s1" ∧
    callbackRelay 7 "c2" (encodeState 7 (flowPayload sampleQuery2 "https://c.d/cb")) =
      .redirect "https://c.d/cb?code=c2&state=s2" :=
  ⟨(concurrent_flows_isolated sampleConfig sampleQuery1 sampleQuery2
      "https://a.b/cb" "https://c.d/cb" "s1" "s2" "c1" "c2"
      rfl rfl rfl rfl (by decide)).1,
   (concurrent_flows_isolated sampleConfig sampleQuery1 sampleQuery2
      "https://a.b/cb" "https://c.d/cb" "s1" "s2" "c1" "c2"
      rfl rfl rfl rfl (by decide)).2.1⟩

/-- Claim C4: whatever status and body the upstream token endpoint
returns, the Token Exchange Proxy returns exactly that status and body
to the caller. -/
theorem token_proxy_passthrough (config : ProxyConfig)
    (upstream : TokenRequest → UpstreamHttpResponse) (req : TokenRequest)
    (s : Nat) (b : String)
    (h : upstream (buildUpstreamTokenRequest config req) = ⟨s, b⟩) :
    tokenExchangeProxy config upstream req = ⟨s, b⟩ := by
  simpa [tokenExchangeProxy] using h

/-- Concrete token request used by the witnesses. -/
def sampleTokenRequest : TokenRequest :=
  ⟨some "authorization_code", some "XYZ", some "ver", some "https://a.b/cb", none,
    some "caller-id", some "caller-secret"⟩

/-- Witness for pass-through fidelity: an upstream 400
`invalid_grant` response is relayed with the same status and body. -/
theorem token_proxy_passthrough_witness :
    tokenExchangeProxy sampleConfig
        (fun _ => ⟨400, "\x7b\"error\":\"invalid_grant\"\x7d"⟩) sampleTokenRequest =
      ⟨400, "\x7b\"error\":\"invalid_grant\"\x7d"⟩ :=
  token_proxy_passthrough sampleConfig (fun _ => ⟨400, "\x7b\"error\":\"invalid_grant\"\x7d"⟩)
    sampleTokenRequest 400 "\x7b\"error\":\"invalid_grant\"\x7d" rfl

/-- Claim C5: the outbound upstream token request carries the proxy's
pre-provisioned client identity — never the caller's — and every other
field of the caller's request unchanged; the proxy forwards exactly that
rewritten request. -/
theorem token_proxy_injects_identity (config : ProxyConfig) (req : TokenRequest) :
    (buildUpstreamTokenRequest config req).client_id = some config.client_id ∧
    (buildUpstreamTokenRequest config req).client_secret = some config.client_secret ∧
    (buildUpstreamTokenRequest config req).grant_type = req.grant_type ∧
    (buildUpstreamTokenRequest config req).code = req.code ∧
    (buildUpstreamTokenRequest config req).code_verifier = req.code_verifier ∧
    (buildUpstreamTokenRequest config req).redirect_uri = req.redirect_uri ∧
    (buildUpstreamTokenRequest config req).refresh_token = req.refresh_token ∧
    ∀ upstream : TokenRequest → UpstreamHttpResponse,
      tokenExchangeProxy config upstream req = upstream (buildUpstreamTokenRequest config req) :=
  ⟨rfl, rfl, rfl, rfl, rfl, rfl, rfl, fun _ => rfl⟩

/-- Claim C6: a `/authorize` request whose `redirect_uri` is missing or
malformed gets a 4xx CallerInputError and no redirect. -/
theorem authorize_rejects_invalid_redirect (config : ProxyConfig) (q : AuthorizeQuery)
    (h : q.redirect_uri = none ∨
      ∃ u, q.redirect_uri = some u ∧ isWellFormedUri u = false) :
    (∃ msg, authorizeHandler config q = .callerInputError 400 msg) ∧
    ∀ loc, authorizeHandler config q ≠ .redirect loc := by
  rcases h with h | ⟨u, hu, hw⟩
  · refine ⟨⟨"redirect_uri is required", ?_⟩, ?_⟩
    · simp [authorizeHandler, h]
    · intro loc
      simp [authorizeHandler, h]
  · refine ⟨⟨"redirect_uri is not a valid URL", ?_⟩, ?_⟩
    · simp [authorizeHandler, hu, hw]
    · intro loc
      simp [authorizeHandler, hu, hw]

/-- Witness: `/authorize` without `redirect_uri` is a CallerInputError,
not a redirect. -/
theorem authorize_rejects_invalid_redirect_witness :
    (∃ msg, authorizeHandler sampleConfig ⟨some "code", none, some "abc123", none, none⟩ =
      .callerInputError 400 msg) ∧
    ∀ loc, authorizeHandler sampleConfig ⟨some "code", none, some "abc123", none, none⟩ ≠
      .redirect loc :=
  authorize_rejects_invalid_redirect sampleConfig ⟨some "code", none, some "abc123", none, none⟩
    (Or.inl rfl)

theorem mem_assocSet (l : List (String × String)) (k v : String) :
    (k, v) ∈ assocSet l k v := by
  induction l with
  | nil => simp [assocSet]
  | cons kv rest ih =>
    by_cases h : kv.1 = k
    · simp [assocSet, h]
    · simp only [assocSet]
      rw [if_neg h]
      exact List.mem_cons_of_mem _ ih

/-- Claim C8: a Places API call whose response has a non-success status
fails with the upstream error, which carries the upstream status and
body verbatim (also in its rendered message) and is distinct from the
JSON parse error; this holds for both `makePlacesApiCall` and
`getPlacesPhotoUrl`. -/
theorem places_api_relays_upstream_error :
    (∀ (fetchFn : FetchRequest → HttpResponse) (endpoint accessToken : String)
        (body : Json) (fieldMask : String) (r : HttpResponse),
      fetchFn (placesApiRequest endpoint accessToken body fieldMask) = r →
      r.ok = false →
      makePlacesApiCall fetchFn endpoint accessToken body fieldMask =
        .error (.apiError r.status r.statusText r.bodyText) ∧
      (∀ m, (ApiError.apiError r.status r.statusText r.bodyText) ≠ .parseError m) ∧
      (ApiError.apiError r.status r.statusText r.bodyText).render =
        "Places API error: " ++ toString r.status ++ " " ++ r.statusText ++ " - " ++
          r.bodyText) ∧
    (∀ (fetchFn : FetchRequest → HttpResponse) (photoName accessToken : String)
        (maxHeightPx maxWidthPx : Option Nat) (r : HttpResponse),
      fetchFn (photoRequest photoName accessToken maxHeightPx maxWidthPx) = r →
      r.ok = false →
      getPlacesPhotoUrl fetchFn photoName accessToken maxHeightPx maxWidthPx =
        .error (.apiError r.status r.statusText r.bodyText)) := by
  constructor
  · intro fetchFn endpoint accessToken body fieldMask r hr hok
    refine ⟨?_, fun m h => ApiError.noConfusion h, rfl⟩
    simp [makePlacesApiCall, parseJsonResponse, hr, hok]
  · intro fetchFn photoName accessToken maxHeightPx maxWidthPx r hr hok
    simp [getPlacesPhotoUrl, hr, hok]

/-- A stub network returning a failing response, for the witness. -/
def failFetch : FetchRequest → HttpResponse := fun _ => ⟨false, 403, "Forbidden", "denied"⟩

/-- Witness: a 403 upstream response is relayed as the API error with
that status and body. -/
theorem places_api_relays_upstream_error_witness :
    makePlacesApiCall failFetch "/places:searchText" "tok" Json.null "places.id" =
      .error (.apiError 403 "Forbidden" "denied") :=
  (places_api_relays_upstream_error.1 failFetch "/places:searchText" "tok" Json.null
    "places.id" ⟨false, 403, "Forbidden", "denied"⟩ rfl rfl).1

/-- Claim C9: with neither dimension supplied `getPlacesPhotoUrl`
defaults the query to `maxHeightPx=400`; every call sets
`skipHttpRedirect=true`; and a successful upstream response yields
exactly the `photoUri` member of the upstream JSON body. -/
theorem photo_url_params_and_result :
    photoParams none none = [("maxHeightPx", "400"), ("skipHttpRedirect", "true")] ∧
    renderParams (photoParams none none) = "maxHeightPx=400&skipHttpRedirect=true" ∧
    (∀ maxHeightPx maxWidthPx,
      ("skipHttpRedirect", "true") ∈ photoParams maxHeightPx maxWidthPx) ∧
    (∀ (fetchFn : FetchRequest → HttpResponse) (photoName accessToken : String)
        (maxHeightPx maxWidthPx : Option Nat) (j : Json),
      (fetchFn (photoRequest photoName accessToken maxHeightPx maxWidthPx)).ok = true →
      jsonParse (fetchFn (photoRequest photoName accessToken maxHeightPx maxWidthPx)).bodyText =
        some j →
      getPlacesPhotoUrl fetchFn photoName accessToken maxHeightPx maxWidthPx =
        .ok (jsonGet j "photoUri")) := by
  refine ⟨rfl, rfl, ?_, ?_⟩
  · intro maxHeightPx maxWidthPx
    exact mem_assocSet _ _ _
  · intro fetchFn photoName accessToken maxHeightPx maxWidthPx j hok hparse
    simp [getPlacesPhotoUrl, hok, hparse]

/-- A stub network returning a photo JSON body, for the witness. -/
def photoFetchStub : FetchRequest → HttpResponse :=
  fun _ => ⟨true, 200, "OK", "\x7b\"photoUri\":\"https://img.example/p.jpg\"\x7d"⟩

/-- Witness: a concrete successful photo call returns the body's
`photoUri`. -/
theorem photo_url_params_and_result_witness :
    getPlacesPhotoUrl photoFetchStub "places/p1/photos/ph1" "tok" none none =
      .ok (.str "https://img.example/p.jpg") :=
  photo_url_params_and_result.2.2.2 photoFetchStub "places/p1/photos/ph1" "tok" none none
    (.obj [("photoUri", .str "https://img.example/p.jpg")]) rfl rfl

/-- Claim C10: on a success status, an empty or whitespace-only body
yields the fixed success object, a non-empty body that parses as JSON
yields that parsed JSON, and a non-empty body that does not parse fails
with the parse error. -/
theorem places_api_success_body_handling
    (fetchFn : FetchRequest → HttpResponse) (endpoint accessToken : String)
    (body : Json) (fieldMask : String) (r : HttpResponse)
    (hr : fetchFn (placesApiRequest endpoint accessToken body fieldMask) = r)
    (hok : r.ok = true) :
    (trimString r.bodyText = "" →
      makePlacesApiCall fetchFn endpoint accessToken body fieldMask = .ok successJson) ∧
    (∀ j, trimString r.bodyText ≠ "" → jsonParse r.bodyText = some j →
      makePlacesApiCall fetchFn endpoint accessToken body fieldMask = .ok j) ∧
    (trimString r.bodyText ≠ "" → jsonParse r.bodyText = none →
      makePlacesApiCall fetchFn endpoint accessToken body fieldMask =
        .error (.parseError r.bodyText)) := by
  refine ⟨?_, ?_, ?_⟩
  · intro htrim
    simp [makePlacesApiCall, parseJsonResponse, hr, hok, htrim]
  · intro j htrim hparse
    simp [makePlacesApiCall, parseJsonResponse, hr, hok, htrim, hparse]
  · intro htrim hparse
    simp [makePlacesApiCall, parseJsonResponse, hr, hok, htrim, hparse]

/-- A stub network returning a whitespace-only success body, for the
witness. -/
def emptyBodyFetch : FetchRequest → HttpResponse := fun _ => ⟨true, 200, "OK", "  "⟩

/-- Witness: a whitespace-only success body yields the fixed success
object. -/
theorem places_api_success_body_handling_witness :
    makePlacesApiCall emptyBodyFetch "/places:searchText" "tok" Json.null "places.id" =
      .ok successJson :=
  (places_api_success_body_handling emptyBodyFetch "/places:searchText" "tok" Json.null
    "places.id" ⟨true, 200, "OK", "  "⟩ rfl rfl).1 (by decide)
